import Mathlib

/-!
Verification of the modelrelay router core.

This file is a shallow embedding of the scoring, ranking, routing-retry,
rate-limit-expiry and ban/pin administration logic of the repository
(`lib/utils.js` and the `runServer` function of `lib/server.js`, first
snapshot, lines 1-971).  JavaScript numbers are modelled as exact
rationals (`ℚ`), machine timestamps as integers (milliseconds), and
`Math.round` as `jsRound` (round half toward positive infinity, the JS
semantics).  Fallible or external effects (upstream fetches, API-key
lookup) are passed in as explicit oracles.
-/

/-- JavaScript `Math.round`: rounds half toward positive infinity. -/
def jsRound (q : ℚ) : ℤ := ⌊q + 1/2⌋

/-- One entry of a model's ping history (`r.pings` in the source).
`ms` is the observed latency in milliseconds; the `'TIMEOUT'` sentinel the
source stores for code `'000'` pings never reaches the arithmetic below
because every consumer first filters on `code == '200'`, so latency is
modelled numerically.  `ts` is the capture timestamp; old entries may lack
one (`p.ts == null` in the source), hence `Option`. -/
structure Ping where
  ms : ℚ
  code : String
  ts : Option ℤ
deriving DecidableEq

/-- A rate-limit snapshot (`r.rateLimit` in the source).  Absent JS fields
are `none` / `false` (reads in the source are `=== true` checks or `|| 0`
defaults, so `undefined` behaves as `false` / `0`). -/
structure RateLimit where
  limitRequests : Option ℤ
  remainingRequests : Option ℤ
  limitTokens : Option ℤ
  remainingTokens : Option ℤ
  resetRequestsAt : Option ℤ
  resetTokensAt : Option ℤ
  wasRateLimited : Bool
  capturedAt : Option ℤ
deriving DecidableEq

/-- A rate-limit object built by `ping()` (server.js lines 171-193) from
response headers.  `ping()` never sets `wasRateLimited` or `capturedAt`,
so the type has no such fields. -/
structure PingRateLimit where
  limitRequests : Option ℤ
  remainingRequests : Option ℤ
  limitTokens : Option ℤ
  remainingTokens : Option ℤ
  resetRequestsAt : Option ℤ
  resetTokensAt : Option ℤ
deriving DecidableEq

/-- Reading a `ping()`-produced rate-limit object as a full snapshot: the
absent `wasRateLimited` field reads as `false` (`=== true` fails) and the
absent `capturedAt` reads as missing. -/
def PingRateLimit.toRateLimit (p : PingRateLimit) : RateLimit :=
  { limitRequests := p.limitRequests
    remainingRequests := p.remainingRequests
    limitTokens := p.limitTokens
    remainingTokens := p.remainingTokens
    resetRequestsAt := p.resetRequestsAt
    resetTokensAt := p.resetTokensAt
    wasRateLimited := false
    capturedAt := none }

/-- One per-(provider, model) state record (`results` entries in
`runServer`, server.js lines 243-255).  Fields not read by any verified
operation (label, context size, lastError message) are omitted. -/
structure ModelRecord where
  providerKey : String
  modelId : String
  coding : ℚ
  intell : ℚ
  termbench : ℚ
  status : String
  pings : List Ping
  httpCode : Option String
  rateLimit : Option RateLimit
  lastModelResponseAt : ℤ
deriving DecidableEq

/-- `DEFAULT_PING_WINDOW_MS = 35 * 60 * 1000` (utils.js line 8). -/
def DEFAULT_PING_WINDOW_MS : ℤ := 35 * 60 * 1000

/-- The filter inside `getAvg` (utils.js lines 12-13): pings whose HTTP
code is `'200'` and whose timestamp is absent or within `windowMs` of
`now`. -/
def inWindowSuccesses (now windowMs : ℤ) (r : ModelRecord) : List Ping :=
  r.pings.filter fun p =>
    p.code == "200" &&
      (match p.ts with
       | none => true
       | some t => decide (now - t ≤ windowMs))

/-- `getAvg` (utils.js lines 10-16).  `Date.now()` is the explicit `now`
argument; the JS `Infinity` result is `none`; otherwise the source
returns `Math.round` of the mean latency of the in-window successful
pings. -/
def getAvg (now windowMs : ℤ) (r : ModelRecord) : Option ℤ :=
  let successfulPings := inWindowSuccesses now windowMs r
  if successfulPings.isEmpty then none
  else some (jsRound ((successfulPings.map fun p => p.ms).sum / (successfulPings.length : ℚ)))

/-- `getUptime` (utils.js lines 34-38): `Math.round(100 * successes / total)`,
`0` for an empty history. -/
def getUptime (r : ModelRecord) : ℤ :=
  if r.pings.isEmpty then 0
  else jsRound (((r.pings.filter fun p => p.code == "200").length : ℚ) / (r.pings.length : ℚ) * 100)

/-- `computeQoS` (utils.js lines 98-116). -/
def computeQoS (now : ℤ) (r : ModelRecord) : ℤ :=
  if r.status != "up" then 0
  else
    let aaScore : ℚ := r.coding * 2 + r.intell + r.termbench * 100
    let avg := getAvg now DEFAULT_PING_WINDOW_MS r
    let ping : ℚ := match avg with
      | none => 1000
      | some a => (a : ℚ)
    let pingScore : ℚ := max 0 (1000 - ping) / 10
    let baseScore : ℚ := aaScore + pingScore
    let uptime := getUptime r
    let availabilityMultiplier : ℚ :=
      if 95 ≤ uptime then 1
      else if 85 ≤ uptime then 9/10
      else if 70 ≤ uptime then 6/10
      else 2/10
    jsRound (baseScore * availabilityMultiplier)

/-- `isModelEligibleForRouting` (utils.js lines 118-120). -/
def isModelEligibleForRouting (r : ModelRecord) : Bool :=
  r.status != "banned" && r.status != "disabled"

/-- Stable descending insertion into a list already sorted by descending
QoS; an element moves ahead only of strictly smaller keys, so elements
with equal keys keep their original relative order — the semantics of the
stable JS `Array.prototype.sort` with comparator `(a, b) => b.qos - a.qos`
(utils.js line 126). -/
def insertQoSDesc (x : ModelRecord × ℤ) : List (ModelRecord × ℤ) → List (ModelRecord × ℤ)
  | [] => [x]
  | y :: ys => if y.2 ≤ x.2 then x :: y :: ys else y :: insertQoSDesc x ys

/-- Stable sort by descending QoS score (utils.js line 126). -/
def sortQoSDesc : List (ModelRecord × ℤ) → List (ModelRecord × ℤ)
  | [] => []
  | x :: xs => insertQoSDesc x (sortQoSDesc xs)

/-- `rankModelsForRouting` (utils.js lines 122-128). -/
def rankModelsForRouting (now : ℤ) (results : List ModelRecord)
    (excludedModelIds : List String) : List ModelRecord :=
  let eligible := results.filter fun r =>
    isModelEligibleForRouting r && !(excludedModelIds.contains r.modelId)
  let scored := eligible.map fun r => (r, computeQoS now r)
  (sortQoSDesc scored).map fun s => s.1

/-- `findBestModel` (utils.js lines 130-133): head of the ranking with an
empty exclusion set, `null` (`none`) when the ranking is empty. -/
def findBestModel (now : ℤ) (results : List ModelRecord) : Option ModelRecord :=
  (rankModelsForRouting now results []).head?

/-- `isRetryableProxyStatus` (utils.js lines 135-139).  The argument is the
integral HTTP status from `response.status`, so the JS `Number.isInteger`
guard is always satisfied here. -/
def isRetryableProxyStatus (status : ℕ) : Bool :=
  status == 429 || decide (500 ≤ status)

/-- The bounded ping-history append used by both the probe path
(server.js lines 278-279) and the live-traffic success path (lines
734-735): push, then `shift()` the oldest entry when the length exceeds
50. -/
def pushPingBounded (pings : List Ping) (p : Ping) : List Ping :=
  let l := pings ++ [p]
  if 50 < l.length then l.drop 1 else l

/-- The stale-`wasRateLimited` expiry block run on every probe
(`pingModel`, server.js lines 296-310): when the flag is set and either
the latest known reset time has passed, or no reset time is known and 60
seconds have elapsed since `capturedAt`, the flag is cleared and — when
this probe produced fresh header data — the whole snapshot is replaced by
it. -/
def expireStaleRateLimit (now : ℤ) (s : RateLimit) (fresh : Option PingRateLimit) : RateLimit :=
  if s.wasRateLimited = true then
    let resetReq := s.resetRequestsAt.getD 0
    let resetTok := s.resetTokensAt.getD 0
    let latestReset := max resetReq resetTok
    let fallbackExpiry := s.capturedAt.getD 0 + 60000
    if (0 < latestReset ∧ latestReset < now) ∨ (latestReset = 0 ∧ fallbackExpiry < now) then
      match fresh with
      | some f => f.toRateLimit
      | none => { s with wasRateLimited := false }
    else s
  else s

/-- `MAX_PROACTIVE_RETRIES = 5` (server.js line 42). -/
def MAX_PROACTIVE_RETRIES : ℕ := 5

/-- `pickNextModel` inside the chat-completions handler (server.js lines
612-621): prefer the pinned model when it exists, is not banned/disabled
and was not yet attempted this request; otherwise the head of the
ranking that excludes all already-attempted model ids. -/
def pickNextModel (now : ℤ) (results : List ModelRecord) (pinnedModelId : Option String)
    (attempted : List String) : Option ModelRecord :=
  let ranked : Option ModelRecord := (rankModelsForRouting now results attempted).head?
  match pinnedModelId with
  | some pid =>
    match results.find? (fun r => r.modelId == pid) with
    | some pinned =>
      if pinned.status != "banned" && pinned.status != "disabled"
          && !(attempted.contains pinned.modelId) then
        some pinned
      else ranked
    | none => ranked
  | none => ranked

/-- Outcome of one upstream `fetch` of the proxied request: a thrown
transport error (with its message) or an HTTP response with a status. -/
inductive FetchOutcome where
  | netErr (msg : String)
  | resp (status : ℕ)
deriving DecidableEq

/-- Status field of one `attemptMeta` record (server.js lines 674-727). -/
inductive AttemptStatus where
  | noKey
  | noUrl
  | err
  | http (status : ℕ)
deriving DecidableEq

/-- One `attemptMeta` entry pushed onto `attempts` (server.js lines
674-727). -/
structure AttemptMeta where
  model : String
  provider : String
  status : AttemptStatus
  retryable : Bool
deriving DecidableEq

/-- How the candidate-selection loop (server.js lines 663-763) ends:
with a selected upstream response (success or final non-retryable
failure), with nothing selected (loop bound reached or no candidate
left), or by rethrowing a transport error on the last allowed attempt
(line 719). -/
inductive LoopExit where
  | selected (m : ModelRecord) (status : ℕ)
  | exhausted
  | thrown (msg : String)

/-- One run of the retry loop body (server.js lines 663-763).  `fuel` is
the number of loop iterations still allowed (`MAX_PROACTIVE_RETRIES + 1`
at entry) and `retry` the current iteration counter; `fetchOutcome retry`
is the world's answer to the upstream call of iteration `retry`.  Failed
iterations do not mutate anything the ranking reads (only `rateLimit`
fields are captured, which neither eligibility nor `computeQoS`
consults), so the record list is constant across iterations. -/
def routeLoopGo (now : ℤ) (results : List ModelRecord) (pinnedModelId : Option String)
    (apiKey providerUrl : String → Option String) (fetchOutcome : ℕ → FetchOutcome) :
    ℕ → ℕ → List String → List AttemptMeta → LoopExit × List AttemptMeta
  | 0, _, _, acc => (.exhausted, acc)
  | fuel + 1, retry, attempted, acc =>
    match pickNextModel now results pinnedModelId attempted with
    | none => (.exhausted, acc)
    | some best =>
      let attempted' := best.modelId :: attempted
      match apiKey best.providerKey with
      | none =>
        routeLoopGo now results pinnedModelId apiKey providerUrl fetchOutcome
          fuel (retry + 1) attempted' (acc ++ [⟨best.modelId, best.providerKey, .noKey, false⟩])
      | some _ =>
        match providerUrl best.providerKey with
        | none =>
          routeLoopGo now results pinnedModelId apiKey providerUrl fetchOutcome
            fuel (retry + 1) attempted' (acc ++ [⟨best.modelId, best.providerKey, .noUrl, false⟩])
        | some _ =>
          match fetchOutcome retry with
          | .netErr msg =>
            let a : AttemptMeta := ⟨best.modelId, best.providerKey, .err, true⟩
            if retry = MAX_PROACTIVE_RETRIES then (.thrown msg, acc ++ [a])
            else
              routeLoopGo now results pinnedModelId apiKey providerUrl fetchOutcome
                fuel (retry + 1) attempted' (acc ++ [a])
          | .resp status =>
            let a : AttemptMeta :=
              ⟨best.modelId, best.providerKey, .http status, isRetryableProxyStatus status⟩
            if 200 ≤ status ∧ status ≤ 299 then (.selected best status, acc ++ [a])
            else if isRetryableProxyStatus status = true ∧ retry < MAX_PROACTIVE_RETRIES then
              routeLoopGo now results pinnedModelId apiKey providerUrl fetchOutcome
                fuel (retry + 1) attempted' (acc ++ [a])
            else (.selected best status, acc ++ [a])

/-- The full candidate-selection loop of one inbound request (server.js
lines 663-763): at most `MAX_PROACTIVE_RETRIES + 1` iterations starting
from an empty attempted set. -/
def routeLoop (now : ℤ) (results : List ModelRecord) (pinnedModelId : Option String)
    (apiKey providerUrl : String → Option String) (fetchOutcome : ℕ → FetchOutcome) :
    LoopExit × List AttemptMeta :=
  routeLoopGo now results pinnedModelId apiKey providerUrl fetchOutcome
    (MAX_PROACTIVE_RETRIES + 1) 0 [] []

/-- What the handler sends back to the caller: a relay of the selected
upstream response's status (and body), or a JSON error the router itself
builds. -/
inductive RouterReply where
  | upstream (status : ℕ)
  | synthetic (status : ℕ) (message : String)
deriving DecidableEq

/-- The body message of the synthetic 503 (server.js line 770). -/
def noModelsMessage : String := "No models currently available for this request."

/-- The response selection of the chat-completions handler (server.js
lines 765-779 and the catch block at lines 942-950): an exhausted loop
yields the synthetic 503; a rethrown transport error is caught by the
outer catch, which answers 400 with the error's message; otherwise the
selected upstream status is relayed. -/
def handleChatCompletion (now : ℤ) (results : List ModelRecord) (pinnedModelId : Option String)
    (apiKey providerUrl : String → Option String) (fetchOutcome : ℕ → FetchOutcome) :
    RouterReply :=
  match (routeLoop now results pinnedModelId apiKey providerUrl fetchOutcome).1 with
  | .selected _ status => .upstream status
  | .exhausted => .synthetic 503 noModelsMessage
  | .thrown msg => .synthetic 400 msg

/-- The mutable server state touched by the ban endpoint (server.js lines
455-490): the persisted ban list (`config.bannedModels`), the in-memory
`bannedModels` array, the model records, and the pinned model id. -/
structure BanState where
  configBannedModels : List String
  bannedModels : List String
  results : List ModelRecord
  pinnedModelId : Option String
deriving DecidableEq

/-- Reply of the ban endpoint: 400 on a missing model id, otherwise a
success payload carrying the updated ban list. -/
inductive BanReply where
  | badRequest
  | success (bannedModels : List String)
deriving DecidableEq

/-- The in-place status change of lines 474-482: the first record whose
`modelId` matches is marked `banned`, or reset to `pending` with an
emptied ping history on unban; all other records are untouched. -/
def setBanStatus : List ModelRecord → String → Bool → List ModelRecord
  | [], _, _ => []
  | r :: rs, mid, banned =>
    if r.modelId == mid then
      (if banned then { r with status := "banned" }
       else { r with status := "pending", pings := [] }) :: rs
    else r :: setBanStatus rs mid banned

/-- `app.post('/api/models/ban')` (server.js lines 455-490). -/
def banHandler (st : BanState) (modelId : Option String) (banned : Bool) :
    BanState × BanReply :=
  match modelId with
  | none => (st, .badRequest)
  | some mid =>
    let currentBans :=
      if banned then
        (if st.configBannedModels.contains mid then st.configBannedModels
         else st.configBannedModels ++ [mid])
      else st.configBannedModels.filter fun m => m != mid
    let bannedModels' :=
      if banned then
        (if st.bannedModels.contains mid then st.bannedModels
         else st.bannedModels ++ [mid])
      else st.bannedModels.filter fun m => m != mid
    let results' := setBanStatus st.results mid banned
    let pinned' :=
      if banned ∧ st.pinnedModelId = some mid then none else st.pinnedModelId
    ({ configBannedModels := currentBans
       bannedModels := bannedModels'
       results := results'
       pinnedModelId := pinned' }, .success currentBans)

/-- The QoS score exactly as the specification words it: `0` when the
record is not `up`, otherwise `round((coding*2 + intelligence +
terminalBench*100 + max(0, 1000 − min(avgLatency, 1000))/10) * m)` with
`min(Infinity, 1000) = 1000` and the uptime-tier multiplier `m`.  Written
from the specification, to be compared against `computeQoS` (from the
source). -/
def specQoS (now : ℤ) (r : ModelRecord) : ℤ :=
  if r.status ≠ "up" then 0
  else
    let cappedLatency : ℚ := match getAvg now DEFAULT_PING_WINDOW_MS r with
      | none => 1000
      | some a => min (a : ℚ) 1000
    let m : ℚ :=
      if 95 ≤ getUptime r then 1
      else if 85 ≤ getUptime r then 9/10
      else if 70 ≤ getUptime r then 6/10
      else 2/10
    jsRound ((r.coding * 2 + r.intell + r.termbench * 100
      + max 0 (1000 - cappedLatency) / 10) * m)

/-- A successful 1000 ms ping captured at timestamp 0. -/
def pingOk1000 : Ping := ⟨1000, "200", some 0⟩

/-- A failed (HTTP 500) ping captured at timestamp 0. -/
def pingFail : Ping := ⟨0, "500", some 0⟩

/-- A record with `nOk` successful 1000 ms pings followed by `nFail`
failed pings, used to build concrete scenario inputs. -/
def mkRec (id : String) (coding intell termbench : ℚ) (status : String)
    (nOk nFail : ℕ) : ModelRecord :=
  { providerKey := "p"
    modelId := id
    coding := coding
    intell := intell
    termbench := termbench
    status := status
    pings := List.replicate nOk pingOk1000 ++ List.replicate nFail pingFail
    httpCode := none
    rateLimit := none
    lastModelResponseAt := 0 }

/-- Scenario candidate A of the specification: banned, but with quality
metrics that would score 80 were it eligible and `up`. -/
def recA : ModelRecord := mkRec "model-a" 40 0 0 "banned" 20 0

/-- Scenario candidate B of the specification: eligible, scoring 10. -/
def recB : ModelRecord := mkRec "model-b" 5 0 0 "up" 20 0

/-- Record whose in-window successful latencies are 1 ms and 2 ms, so the
exact mean is 3/2 while `getAvg` returns the rounded value 2. -/
def c6CounterRec : ModelRecord :=
  { mkRec "model-c6" 0 0 0 "up" 0 0 with
    pings := [⟨1, "200", some 0⟩, ⟨2, "200", some 0⟩] }

/-- The specification's `getAvg` example record: pings
`[{200,200ms}, {200,400ms}, {429,800ms}]`. -/
def c6ExampleRec : ModelRecord :=
  { mkRec "model-c6ex" 0 0 0 "up" 0 0 with
    pings := [⟨200, "200", some 0⟩, ⟨400, "200", some 0⟩, ⟨800, "429", some 0⟩] }

/-- An `up` record at 96% uptime (23 successes out of 24 pings) whose
base score is 1. -/
def c8High : ModelRecord := mkRec "model-hi" 0 1 0 "up" 23 1

/-- An otherwise-identical `up` record at 80% uptime (4 successes out of
5 pings). -/
def c8Low : ModelRecord := mkRec "model-lo" 0 1 0 "up" 4 1

/-- A minimal pending record used in routing-loop scenarios. -/
def demoModel (id : String) : ModelRecord :=
  { providerKey := "prov"
    modelId := id
    coding := 0
    intell := 0
    termbench := 0
    status := "pending"
    pings := []
    httpCode := none
    rateLimit := none
    lastModelResponseAt := 0 }

/-- Six distinct pending candidates. -/
def demoModels : List ModelRecord :=
  [demoModel "m1", demoModel "m2", demoModel "m3",
   demoModel "m4", demoModel "m5", demoModel "m6"]

/-- A credential oracle that knows a key for every provider. -/
def allKeys : String → Option String := fun _ => some "key"

/-- A credential oracle with no key for any provider. -/
def noKeys : String → Option String := fun _ => none

/-- An endpoint oracle that knows a URL for every provider. -/
def allUrls : String → Option String := fun _ => some "https://provider.example/v1/chat/completions"

/-- An upstream world answering HTTP 500 to the first attempt and HTTP
200 afterwards. -/
def fetch500Then200 : ℕ → FetchOutcome := fun n => if n = 0 then .resp 500 else .resp 200

/-- An upstream world where every fetch throws a transport error. -/
def fetchAllNetErr : ℕ → FetchOutcome := fun _ => .netErr "fetch failed"

/-- A rate-limit snapshot flagged at time 39000 ms with no known reset
times: 61 s before the probe at `now = 100000`. -/
def c7Snapshot : RateLimit :=
  { limitRequests := none
    remainingRequests := none
    limitTokens := none
    remainingTokens := none
    resetRequestsAt := none
    resetTokensAt := none
    wasRateLimited := true
    capturedAt := some 39000 }

/-- Fresh header data observed by the probe at `now = 100000`. -/
def c7Fresh : PingRateLimit :=
  { limitRequests := some 100
    remainingRequests := some 99
    limitTokens := none
    remainingTokens := none
    resetRequestsAt := none
    resetTokensAt := none }

/-- Server state with one live record `m1` that is also pinned. -/
def banDemoState : BanState :=
  { configBannedModels := []
    bannedModels := []
    results := [{ demoModel "m1" with status := "up", pings := [pingOk1000] }]
    pinnedModelId := some "m1" }

/-- Candidate A with status `up`: scores 80, showing what A would score
were it not banned. -/
def recAUp : ModelRecord := mkRec "model-a" 40 0 0 "up" 20 0

lemma jsRound_le_jsRound {a b : ℚ} (h : a ≤ b) : jsRound a ≤ jsRound b := by
  unfold jsRound
  exact Int.floor_le_floor (by linarith)

lemma jsRound_eq_of_bounds {q : ℚ} {n : ℤ} (h1 : (n : ℚ) ≤ q + 1/2) (h2 : q + 1/2 < n + 1) :
    jsRound q = n := by
  unfold jsRound
  rw [Int.floor_eq_iff]
  · exact ⟨h1, by exact_mod_cast h2⟩

lemma mem_insertQoSDesc {a x : ModelRecord × ℤ} :
    ∀ {l : List (ModelRecord × ℤ)}, a ∈ insertQoSDesc x l ↔ a = x ∨ a ∈ l := by
  intro l
  induction l with
  | nil => simp [insertQoSDesc]
  | cons y ys ih =>
    by_cases h : y.2 ≤ x.2
    · simp [insertQoSDesc, h]
    · simp only [insertQoSDesc, if_neg h, List.mem_cons, ih]
      tauto

lemma mem_sortQoSDesc {a : ModelRecord × ℤ} :
    ∀ {l : List (ModelRecord × ℤ)}, a ∈ sortQoSDesc l ↔ a ∈ l := by
  intro l
  induction l with
  | nil => simp [sortQoSDesc]
  | cons y ys ih => simp [sortQoSDesc, mem_insertQoSDesc, ih]

lemma mem_rankModelsForRouting {now : ℤ} {results : List ModelRecord}
    {excl : List String} {r : ModelRecord}
    (h : r ∈ rankModelsForRouting now results excl) :
    r ∈ results ∧ isModelEligibleForRouting r = true ∧ excl.contains r.modelId = false := by
  unfold rankModelsForRouting at h
  simp only [List.mem_map] at h
  obtain ⟨p, hp, hpr⟩ := h
  rw [mem_sortQoSDesc] at hp
  simp only [List.mem_map] at hp
  obtain ⟨r', hr', hr'p⟩ := hp
  subst hr'p
  simp only at hpr
  subst hpr
  rw [List.mem_filter] at hr'
  refine ⟨hr'.1, ?_, ?_⟩
  · have := hr'.2
    simp only [Bool.and_eq_true] at this
    exact this.1
  · have := hr'.2
    simp only [Bool.and_eq_true, Bool.not_eq_true'] at this
    exact this.2

lemma eligible_status_ne {r : ModelRecord} (h : isModelEligibleForRouting r = true) :
    r.status ≠ "banned" ∧ r.status ≠ "disabled" := by
  unfold isModelEligibleForRouting at h
  simp only [Bool.and_eq_true, bne_iff_ne, ne_eq] at h
  exact h

lemma contains_false_not_mem {l : List String} {s : String}
    (h : l.contains s = false) : s ∉ l := by
  simpa [List.contains] using h

lemma head?_mem_rank {now : ℤ} {results : List ModelRecord} {excl : List String}
    {m : ModelRecord} (h : (rankModelsForRouting now results excl).head? = some m) :
    m ∈ rankModelsForRouting now results excl := by
  cases hl : rankModelsForRouting now results excl with
  | nil => rw [hl] at h; simp at h
  | cons a l =>
    rw [hl] at h
    simp only [List.head?_cons, Option.some.injEq] at h
    subst h
    exact List.mem_cons_self a l

lemma pickNextModel_not_attempted {now : ℤ} {results : List ModelRecord}
    {pinned : Option String} {attempted : List String} {m : ModelRecord}
    (h : pickNextModel now results pinned attempted = some m) :
    m.modelId ∉ attempted := by
  have hrank : ∀ m', (rankModelsForRouting now results attempted).head? = some m' →
      m'.modelId ∉ attempted := by
    intro m' hm'
    have := (mem_rankModelsForRouting (head?_mem_rank hm')).2.2
    exact contains_false_not_mem this
  unfold pickNextModel at h
  cases pinned with
  | none => exact hrank m h
  | some pid =>
    simp only at h
    cases hfind : results.find? (fun r => r.modelId == pid) with
    | none =>
      simp only [hfind] at h
      exact hrank m h
    | some p =>
      simp only [hfind] at h
      by_cases hcond : (p.status != "banned" && p.status != "disabled"
          && !(attempted.contains p.modelId)) = true
      · rw [if_pos hcond] at h
        simp only [Option.some.injEq] at h
        subst h
        simp only [Bool.and_eq_true, Bool.not_eq_true'] at hcond
        exact contains_false_not_mem hcond.2
      · rw [if_neg hcond] at h
        exact hrank m h

lemma routeLoopGo_succ_shape (now : ℤ) (results : List ModelRecord) (pinned : Option String)
    (k u : String → Option String) (f : ℕ → FetchOutcome)
    (fuel retry : ℕ) (attempted : List String) (acc : List AttemptMeta) :
    routeLoopGo now results pinned k u f (fuel + 1) retry attempted acc = (.exhausted, acc) ∨
    ∃ best a, pickNextModel now results pinned attempted = some best ∧
      a.model = best.modelId ∧
      ((routeLoopGo now results pinned k u f (fuel + 1) retry attempted acc =
          routeLoopGo now results pinned k u f fuel (retry + 1) (best.modelId :: attempted)
            (acc ++ [a]) ∧
        ∀ s, a.status = .http s → isRetryableProxyStatus s = true)
       ∨ (routeLoopGo now results pinned k u f (fuel + 1) retry attempted acc).2 = acc ++ [a]) := by
  cases hpick : pickNextModel now results pinned attempted with
  | none =>
    left
    simp only [routeLoopGo, hpick]
  | some best =>
    right
    cases hk : k best.providerKey with
    | none =>
      exact ⟨best, ⟨best.modelId, best.providerKey, .noKey, false⟩, rfl, rfl,
        Or.inl ⟨by simp only [routeLoopGo, hpick, hk], fun s hs => nomatch hs⟩⟩
    | some key =>
      cases hu : u best.providerKey with
      | none =>
        exact ⟨best, ⟨best.modelId, best.providerKey, .noUrl, false⟩, rfl, rfl,
          Or.inl ⟨by simp only [routeLoopGo, hpick, hk, hu], fun s hs => nomatch hs⟩⟩
      | some url =>
        cases hf : f retry with
        | netErr msg =>
          by_cases hr : retry = MAX_PROACTIVE_RETRIES
          · exact ⟨best, ⟨best.modelId, best.providerKey, .err, true⟩, rfl, rfl,
              Or.inr (by simp only [routeLoopGo, hpick, hk, hu, hf, if_pos hr])⟩
          · exact ⟨best, ⟨best.modelId, best.providerKey, .err, true⟩, rfl, rfl,
              Or.inl ⟨by simp only [routeLoopGo, hpick, hk, hu, hf, if_neg hr],
                fun s hs => nomatch hs⟩⟩
        | resp status =>
          by_cases hok : 200 ≤ status ∧ status ≤ 299
          · exact ⟨best,
              ⟨best.modelId, best.providerKey, .http status, isRetryableProxyStatus status⟩,
              rfl, rfl,
              Or.inr (by simp only [routeLoopGo, hpick, hk, hu, hf, if_pos hok])⟩
          · by_cases hretry : isRetryableProxyStatus status = true ∧ retry < MAX_PROACTIVE_RETRIES
            · refine ⟨best,
                ⟨best.modelId, best.providerKey, .http status, isRetryableProxyStatus status⟩,
                rfl, rfl,
                Or.inl ⟨by simp only [routeLoopGo, hpick, hk, hu, hf, if_neg hok, if_pos hretry],
                  fun s hs => ?_⟩⟩
              injection hs with h
              exact h ▸ hretry.1
            · exact ⟨best,
                ⟨best.modelId, best.providerKey, .http status, isRetryableProxyStatus status⟩,
                rfl, rfl,
                Or.inr (by
                  simp only [routeLoopGo, hpick, hk, hu, hf, if_neg hok, if_neg hretry])⟩

lemma routeLoopGo_length (now : ℤ) (results : List ModelRecord) (pinned : Option String)
    (k u : String → Option String) (f : ℕ → FetchOutcome) :
    ∀ (fuel retry : ℕ) (attempted : List String) (acc : List AttemptMeta),
      (routeLoopGo now results pinned k u f fuel retry attempted acc).2.length
        ≤ acc.length + fuel := by
  intro fuel
  induction fuel with
  | zero =>
    intro retry attempted acc
    simp [routeLoopGo]
  | succ n ih =>
    intro retry attempted acc
    rcases routeLoopGo_succ_shape now results pinned k u f n retry attempted acc with
      h | ⟨best, a, _, _, ⟨heq, _⟩ | hterm⟩
    · rw [h]
      simp only []
      omega
    · rw [heq]
      have := ih (retry + 1) (best.modelId :: attempted) (acc ++ [a])
      simp only [List.length_append, List.length_singleton] at this
      omega
    · rw [hterm]
      simp only [List.length_append, List.length_singleton]
      omega

lemma routeLoopGo_dropLast (now : ℤ) (results : List ModelRecord) (pinned : Option String)
    (k u : String → Option String) (f : ℕ → FetchOutcome) :
    ∀ (fuel retry : ℕ) (attempted : List String) (acc : List AttemptMeta),
      (∀ x ∈ acc, ∀ s, x.status = .http s → isRetryableProxyStatus s = true) →
      ∀ x ∈ (routeLoopGo now results pinned k u f fuel retry attempted acc).2.dropLast,
        ∀ s, x.status = .http s → isRetryableProxyStatus s = true := by
  intro fuel
  induction fuel with
  | zero =>
    intro retry attempted acc hacc x hx
    simp only [routeLoopGo] at hx
    exact hacc x (List.dropLast_subset acc hx)
  | succ n ih =>
    intro retry attempted acc hacc x hx
    rcases routeLoopGo_succ_shape now results pinned k u f n retry attempted acc with
      h | ⟨best, a, _, _, ⟨heq, hcont⟩ | hterm⟩
    · rw [h] at hx
      exact hacc x (List.dropLast_subset acc hx)
    · rw [heq] at hx
      refine ih (retry + 1) (best.modelId :: attempted) (acc ++ [a]) ?_ x hx
      intro y hy
      rcases List.mem_append.mp hy with hy | hy
      · exact hacc y hy
      · rw [List.mem_singleton] at hy
        subst hy
        exact hcont
    · rw [hterm] at hx
      have hx' : x ∈ acc := by simpa using hx
      exact hacc x hx' 

lemma routeLoopGo_nodup (now : ℤ) (results : List ModelRecord) (pinned : Option String)
    (k u : String → Option String) (f : ℕ → FetchOutcome) :
    ∀ (fuel retry : ℕ) (attempted : List String) (acc : List AttemptMeta),
      (acc.map (fun x => x.model)).Nodup →
      (∀ id ∈ acc.map (fun x => x.model), id ∈ attempted) →
      ((routeLoopGo now results pinned k u f fuel retry attempted acc).2.map
        (fun x => x.model)).Nodup := by
  intro fuel
  induction fuel with
  | zero =>
    intro retry attempted acc hnd _
    simpa [routeLoopGo] using hnd
  | succ n ih =>
    intro retry attempted acc hnd hsub
    rcases routeLoopGo_succ_shape now results pinned k u f n retry attempted acc with
      h | ⟨best, a, hpick, hmodel, ⟨heq, _⟩ | hterm⟩
    · rw [h]
      exact hnd
    · rw [heq]
      have hnotatt : best.modelId ∉ attempted := pickNextModel_not_attempted hpick
      refine ih (retry + 1) (best.modelId :: attempted) (acc ++ [a]) ?_ ?_
      · rw [List.map_append]
        rw [List.nodup_append]
        refine ⟨hnd, by simp, ?_⟩
        intro y hy
        simp only [List.map_cons, List.map_nil, List.mem_singleton]
        intro hy'
        rw [hy'] at hy
        rw [hmodel] at hy
        exact hnotatt (hsub _ hy)
      · intro id hid
        rw [List.map_append] at hid
        rcases List.mem_append.mp hid with hid | hid
        · exact List.mem_cons_of_mem _ (hsub id hid)
        · simp only [List.map_cons, List.map_nil, List.mem_singleton] at hid
          rw [hid, hmodel]
          exact List.mem_cons_self _ _
    · rw [hterm]
      have hnotatt : best.modelId ∉ attempted := pickNextModel_not_attempted hpick
      rw [List.map_append]
      rw [List.nodup_append]
      refine ⟨hnd, by simp, ?_⟩
      intro y hy
      simp only [List.map_cons, List.map_nil, List.mem_singleton]
      intro hy'
      rw [hy'] at hy
      rw [hmodel] at hy
      exact hnotatt (hsub _ hy)

lemma filter_replicate_pos {α : Type} {p : α → Bool} {a : α} (h : p a = true) :
    ∀ n : ℕ, (List.replicate n a).filter p = List.replicate n a := by
  intro n
  induction n with
  | zero => simp
  | succ m ih => simp [List.replicate_succ, h, ih]

lemma filter_replicate_neg {α : Type} {p : α → Bool} {a : α} (h : p a = false) :
    ∀ n : ℕ, (List.replicate n a).filter p = [] := by
  intro n
  induction n with
  | zero => simp
  | succ m ih => simp [List.replicate_succ, h, ih]

lemma inWindowSuccesses_mkRec (id : String) (c i t : ℚ) (s : String) (nOk nFail : ℕ) :
    inWindowSuccesses 0 DEFAULT_PING_WINDOW_MS (mkRec id c i t s nOk nFail)
      = List.replicate nOk pingOk1000 := by
  unfold inWindowSuccesses mkRec
  rw [List.filter_append]
  rw [filter_replicate_pos (by decide)]
  rw [filter_replicate_neg (by decide)]
  simp

lemma filter200_mkRec (id : String) (c i t : ℚ) (s : String) (nOk nFail : ℕ) :
    ((mkRec id c i t s nOk nFail).pings.filter fun p => p.code == "200")
      = List.replicate nOk pingOk1000 := by
  show ((List.replicate nOk pingOk1000 ++ List.replicate nFail pingFail).filter
      fun p => p.code == "200") = List.replicate nOk pingOk1000
  rw [List.filter_append]
  rw [filter_replicate_pos (by decide)]
  rw [filter_replicate_neg (by decide)]
  simp

lemma getAvg_mkRec (id : String) (c i t : ℚ) (s : String) (nOk nFail : ℕ) (h : nOk ≠ 0) :
    getAvg 0 DEFAULT_PING_WINDOW_MS (mkRec id c i t s nOk nFail) = some 1000 := by
  unfold getAvg
  rw [inWindowSuccesses_mkRec]
  rw [if_neg (by simp [List.isEmpty_iff, h])]
  congr 1
  rw [List.map_replicate, List.sum_replicate, List.length_replicate]
  have hq : ((nOk : ℚ)) ≠ 0 := Nat.cast_ne_zero.mpr h
  have hms : pingOk1000.ms = (1000 : ℚ) := rfl
  rw [hms, nsmul_eq_mul, mul_div_cancel_left₀ _ hq]
  exact jsRound_eq_of_bounds (by norm_num) (by norm_num)

lemma getUptime_mkRec (id : String) (c i t : ℚ) (s : String) (nOk nFail : ℕ)
    (h : nOk + nFail ≠ 0) :
    getUptime (mkRec id c i t s nOk nFail)
      = jsRound ((nOk : ℚ) / ((nOk : ℚ) + (nFail : ℚ)) * 100) := by
  unfold getUptime
  rw [filter200_mkRec]
  have hlen : (mkRec id c i t s nOk nFail).pings.length = nOk + nFail := by
    show (List.replicate nOk pingOk1000 ++ List.replicate nFail pingFail).length = nOk + nFail
    simp
  rw [if_neg (by
    simp only [List.isEmpty_iff]
    intro hnil
    rw [hnil] at hlen
    simp at hlen
    omega)]
  rw [List.length_replicate, hlen]
  congr 1
  push_cast
  ring

lemma computeQoS_mkRec_up (id : String) (c i t : ℚ) (nOk nFail : ℕ) (h : nOk ≠ 0) :
    computeQoS 0 (mkRec id c i t "up" nOk nFail)
      = jsRound ((c * 2 + i + t * 100) *
          (if 95 ≤ getUptime (mkRec id c i t "up" nOk nFail) then 1
           else if 85 ≤ getUptime (mkRec id c i t "up" nOk nFail) then 9/10
           else if 70 ≤ getUptime (mkRec id c i t "up" nOk nFail) then 6/10
           else 2/10)) := by
  have hstat : (mkRec id c i t "up" nOk nFail).status = "up" := rfl
  have hcod : (mkRec id c i t "up" nOk nFail).coding = c := rfl
  have hint : (mkRec id c i t "up" nOk nFail).intell = i := rfl
  have hter : (mkRec id c i t "up" nOk nFail).termbench = t := rfl
  simp only [computeQoS, hstat, hcod, hint, hter, bne_self_eq_false, Bool.false_eq_true,
    if_false, getAvg_mkRec id c i t "up" nOk nFail h]
  congr 1
  have : (((1000 : ℤ) : ℚ)) = 1000 := by norm_num
  rw [this]
  norm_num

lemma getUptime_recB : getUptime recB = 100 := by
  show getUptime (mkRec "model-b" 5 0 0 "up" 20 0) = 100
  rw [getUptime_mkRec _ _ _ _ _ _ _ (by norm_num)]
  exact jsRound_eq_of_bounds (by norm_num) (by norm_num)

lemma qos_recB : computeQoS 0 recB = 10 := by
  show computeQoS 0 (mkRec "model-b" 5 0 0 "up" 20 0) = 10
  rw [computeQoS_mkRec_up _ _ _ _ _ _ (by norm_num)]
  have h100 : getUptime (mkRec "model-b" 5 0 0 "up" 20 0) = 100 := getUptime_recB
  rw [h100]
  norm_num
  exact jsRound_eq_of_bounds (by norm_num) (by norm_num)

lemma getUptime_recAUp : getUptime recAUp = 100 := by
  show getUptime (mkRec "model-a" 40 0 0 "up" 20 0) = 100
  rw [getUptime_mkRec _ _ _ _ _ _ _ (by norm_num)]
  exact jsRound_eq_of_bounds (by norm_num) (by norm_num)

lemma qos_recAUp : computeQoS 0 recAUp = 80 := by
  show computeQoS 0 (mkRec "model-a" 40 0 0 "up" 20 0) = 80
  rw [computeQoS_mkRec_up _ _ _ _ _ _ (by norm_num)]
  have h100 : getUptime (mkRec "model-a" 40 0 0 "up" 20 0) = 100 := getUptime_recAUp
  rw [h100]
  norm_num
  exact jsRound_eq_of_bounds (by norm_num) (by norm_num)

lemma getUptime_c8High : getUptime c8High = 96 := by
  show getUptime (mkRec "model-hi" 0 1 0 "up" 23 1) = 96
  rw [getUptime_mkRec _ _ _ _ _ _ _ (by norm_num)]
  exact jsRound_eq_of_bounds (by norm_num) (by norm_num)

lemma getUptime_c8Low : getUptime c8Low = 80 := by
  show getUptime (mkRec "model-lo" 0 1 0 "up" 4 1) = 80
  rw [getUptime_mkRec _ _ _ _ _ _ _ (by norm_num)]
  exact jsRound_eq_of_bounds (by norm_num) (by norm_num)

lemma getAvg_c8High : getAvg 0 DEFAULT_PING_WINDOW_MS c8High = some 1000 :=
  getAvg_mkRec "model-hi" 0 1 0 "up" 23 1 (by norm_num)

lemma getAvg_c8Low : getAvg 0 DEFAULT_PING_WINDOW_MS c8Low = some 1000 :=
  getAvg_mkRec "model-lo" 0 1 0 "up" 4 1 (by norm_num)

lemma qos_c8High : computeQoS 0 c8High = 1 := by
  show computeQoS 0 (mkRec "model-hi" 0 1 0 "up" 23 1) = 1
  rw [computeQoS_mkRec_up _ _ _ _ _ _ (by norm_num)]
  have h96 : getUptime (mkRec "model-hi" 0 1 0 "up" 23 1) = 96 := getUptime_c8High
  rw [h96]
  norm_num
  exact jsRound_eq_of_bounds (by norm_num) (by norm_num)

lemma qos_c8Low : computeQoS 0 c8Low = 1 := by
  show computeQoS 0 (mkRec "model-lo" 0 1 0 "up" 4 1) = 1
  rw [computeQoS_mkRec_up _ _ _ _ _ _ (by norm_num)]
  have h80 : getUptime (mkRec "model-lo" 0 1 0 "up" 4 1) = 80 := getUptime_c8Low
  rw [h80]
  norm_num
  exact jsRound_eq_of_bounds (by norm_num) (by norm_num)

lemma inWindow_c6Counter :
    inWindowSuccesses 0 DEFAULT_PING_WINDOW_MS c6CounterRec
      = [⟨1, "200", some 0⟩, ⟨2, "200", some 0⟩] := by
  rfl

lemma inWindow_c6Counter_ne :
    inWindowSuccesses 0 DEFAULT_PING_WINDOW_MS c6CounterRec ≠ [] := by
  rw [inWindow_c6Counter]
  simp

lemma getAvg_c6Counter : getAvg 0 DEFAULT_PING_WINDOW_MS c6CounterRec = some 2 := by
  unfold getAvg
  rw [inWindow_c6Counter]
  rw [if_neg (by simp)]
  congr 1
  show jsRound (((1 : ℚ) + (2 + 0)) / 2) = 2
  exact jsRound_eq_of_bounds (by norm_num) (by norm_num)

lemma c6Counter_mean :
    ((inWindowSuccesses 0 DEFAULT_PING_WINDOW_MS c6CounterRec).map fun p => p.ms).sum
      / ((inWindowSuccesses 0 DEFAULT_PING_WINDOW_MS c6CounterRec).length : ℚ) = 3/2 := by
  rw [inWindow_c6Counter]
  show ((1 : ℚ) + (2 + 0)) / 2 = 3/2
  norm_num

lemma inWindow_c6Example :
    inWindowSuccesses 0 DEFAULT_PING_WINDOW_MS c6ExampleRec
      = [⟨200, "200", some 0⟩, ⟨400, "200", some 0⟩] := by
  rfl

lemma inWindow_c6Example_ne :
    inWindowSuccesses 0 DEFAULT_PING_WINDOW_MS c6ExampleRec ≠ [] := by
  rw [inWindow_c6Example]
  simp

lemma getAvg_c6Example : getAvg 0 DEFAULT_PING_WINDOW_MS c6ExampleRec = some 300 := by
  unfold getAvg
  rw [inWindow_c6Example]
  rw [if_neg (by simp)]
  congr 1
  show jsRound (((200 : ℚ) + (400 + 0)) / 2) = 300
  exact jsRound_eq_of_bounds (by norm_num) (by norm_num)

lemma find?_setBanStatus {mid : String} :
    ∀ (l : List ModelRecord), (l.any fun r => r.modelId == mid) = true →
      ∃ r0, l.find? (fun r => r.modelId == mid) = some r0 ∧
        (setBanStatus l mid true).find? (fun r => r.modelId == mid)
          = some { r0 with status := "banned" } ∧
        (setBanStatus l mid false).find? (fun r => r.modelId == mid)
          = some { r0 with status := "pending", pings := [] } := by
  intro l
  induction l with
  | nil => intro h; simp at h
  | cons r rs ih =>
    intro h
    by_cases hr : (r.modelId == mid) = true
    · refine ⟨r, ?_, ?_, ?_⟩
      · exact @List.find?_cons_of_pos ModelRecord (fun r => r.modelId == mid) r rs hr
      · rw [setBanStatus, if_pos hr, if_pos rfl]
        exact @List.find?_cons_of_pos ModelRecord (fun r => r.modelId == mid) _ rs hr
      · rw [setBanStatus, if_pos hr, if_neg (by simp)]
        exact @List.find?_cons_of_pos ModelRecord (fun r => r.modelId == mid) _ rs hr
    · have h' : (rs.any fun r => r.modelId == mid) = true := by
        simp only [List.any_cons, Bool.or_eq_true] at h
        rcases h with h | h
        · exact absurd h hr
        · exact h
      obtain ⟨r0, h1, h2, h3⟩ := ih h'
      refine ⟨r0, ?_, ?_, ?_⟩
      · rw [@List.find?_cons_of_neg ModelRecord (fun r => r.modelId == mid) r rs
          (by simpa using hr), h1]
      · rw [setBanStatus, if_neg hr,
          @List.find?_cons_of_neg ModelRecord (fun r => r.modelId == mid) r
            (setBanStatus rs mid true) (by simpa using hr), h2]
      · rw [setBanStatus, if_neg hr,
          @List.find?_cons_of_neg ModelRecord (fun r => r.modelId == mid) r
            (setBanStatus rs mid false) (by simpa using hr), h3]

/-- C4: For every model record, the QoS score used for ranking equals 0
when the record's status is not `up`, and otherwise equals
`round((coding*2 + intelligence + terminalBench*100 + max(0, 1000 −
min(avgLatency, 1000))/10) * m)` with the uptime-tier multiplier `m`
(1.0 / 0.9 / 0.6 / 0.2 at the 95 / 85 / 70 thresholds), where an
`Infinity` (or over-1000) average latency contributes a ping score of 0.
`specQoS` is the specification's formula; `computeQoS` is the source's. -/
theorem computeQoS_matches_spec_formula :
    ∀ (now : ℤ) (r : ModelRecord), computeQoS now r = specQoS now r := by
  intro now r
  by_cases h : r.status = "up"
  · unfold computeQoS specQoS
    rw [h]
    simp only [bne_self_eq_false, Bool.false_eq_true, if_false, ne_eq, not_true_eq_false]
    cases havg : getAvg now DEFAULT_PING_WINDOW_MS r with
    | none =>
      simp only [havg]
    | some a =>
      simp only [havg]
      congr 2
      rcases le_total ((a : ℚ)) 1000 with hle | hle
      · rw [min_eq_left hle]
      · rw [min_eq_right hle]
        rw [max_eq_left (by linarith), max_eq_left (by norm_num)]
  · unfold computeQoS specQoS
    have hb : (r.status != "up") = true := by simpa [bne_iff_ne] using h
    rw [hb]
    simp [h]

/-- C5: The ping history of a model record never exceeds 50 entries: one
bounded append keeps the bound, a full history evicts its oldest entry
first, and any sequence of probe or live-traffic appends starting within
the bound stays within it. -/
theorem pingHistory_capacity_50 :
    (∀ (pings : List Ping) (p : Ping), pings.length ≤ 50 →
        (pushPingBounded pings p).length ≤ 50)
    ∧ (∀ (pings : List Ping) (p : Ping), pings.length = 50 →
        pushPingBounded pings p = pings.drop 1 ++ [p])
    ∧ (∀ (appends : List Ping) (init : List Ping), init.length ≤ 50 →
        (appends.foldl pushPingBounded init).length ≤ 50) := by
  have step : ∀ (pings : List Ping) (p : Ping), pings.length ≤ 50 →
      (pushPingBounded pings p).length ≤ 50 := by
    intro pings p hlen
    simp only [pushPingBounded]
    split_ifs with h
    · simp only [List.length_drop, List.length_append, List.length_singleton]
      omega
    · simp only [List.length_append, List.length_singleton] at h ⊢
      omega
  refine ⟨step, ?_, ?_⟩
  · intro pings p hlen
    simp only [pushPingBounded]
    rw [if_pos (by simp [hlen])]
    exact List.drop_append_of_le_length (by omega)
  · intro appends
    induction appends with
    | nil =>
      intro init h
      simpa using h
    | cons q qs ih =>
      intro init h
      simp only [List.foldl_cons]
      exact ih _ (step _ _ h)

/-- C7: On a probe evaluation of a snapshot with `wasRateLimited = true`,
if the latest known reset time is an actual (positive) timestamp lying in
the past, or neither reset timestamp is known and more than 60 seconds
have elapsed since `capturedAt`, then the flag is cleared, and the
snapshot is replaced by the freshly observed header data whenever this
probe produced any. -/
theorem wasRateLimited_expiry_clears :
    ∀ (now : ℤ) (s : RateLimit) (fresh : Option PingRateLimit),
      s.wasRateLimited = true →
      ((0 < max (s.resetRequestsAt.getD 0) (s.resetTokensAt.getD 0)
          ∧ max (s.resetRequestsAt.getD 0) (s.resetTokensAt.getD 0) < now)
        ∨ (s.resetRequestsAt = none ∧ s.resetTokensAt = none
            ∧ s.capturedAt.getD 0 + 60000 < now)) →
      (expireStaleRateLimit now s fresh).wasRateLimited = false
      ∧ ∀ fr, fresh = some fr → expireStaleRateLimit now s fresh = fr.toRateLimit := by
  intro now s fresh hflag hcond
  have hcond' : (0 < max (s.resetRequestsAt.getD 0) (s.resetTokensAt.getD 0)
      ∧ max (s.resetRequestsAt.getD 0) (s.resetTokensAt.getD 0) < now)
      ∨ (max (s.resetRequestsAt.getD 0) (s.resetTokensAt.getD 0) = 0
          ∧ s.capturedAt.getD 0 + 60000 < now) := by
    rcases hcond with h | ⟨h1, h2, h3⟩
    · exact Or.inl h
    · right
      rw [h1, h2]
      exact ⟨by simp, h3⟩
  unfold expireStaleRateLimit
  rw [if_pos hflag]
  rw [if_pos hcond']
  cases fresh with
  | none =>
    refine ⟨rfl, ?_⟩
    intro fr h
    exact absurd h (by simp)
  | some fr0 =>
    refine ⟨rfl, ?_⟩
    intro fr h
    injection h with h
    rw [h]

/-- Witness for C5: a concrete append sequence from an empty history
stays within the 50-entry bound. -/
theorem pingHistory_capacity_witness :
    ([] : List Ping).length ≤ 50
    ∧ ([pingOk1000, pingOk1000, pingFail].foldl pushPingBounded []).length ≤ 50 :=
  ⟨by decide, pingHistory_capacity_50.2.2 [pingOk1000, pingOk1000, pingFail] [] (by decide)⟩

/-- Witness for C7: the snapshot flagged 61 s ago with no reset times is
cleared and replaced by the fresh header data at the next probe. -/
theorem wasRateLimited_expiry_witness :
    c7Snapshot.wasRateLimited = true
    ∧ (c7Snapshot.resetRequestsAt = none ∧ c7Snapshot.resetTokensAt = none
        ∧ c7Snapshot.capturedAt.getD 0 + 60000 < 100000)
    ∧ (expireStaleRateLimit 100000 c7Snapshot (some c7Fresh)).wasRateLimited = false
    ∧ expireStaleRateLimit 100000 c7Snapshot (some c7Fresh) = c7Fresh.toRateLimit := by
  have h := wasRateLimited_expiry_clears 100000 c7Snapshot (some c7Fresh) rfl
    (Or.inr ⟨rfl, rfl, by decide⟩)
  exact ⟨rfl, ⟨rfl, rfl, by decide⟩, h.1, h.2 c7Fresh rfl⟩

/-- C1: The candidate-selection loop of one inbound chat-completion
request tries at most `MAX_PROACTIVE_RETRIES + 1 = 6` candidates in
total, and every attempt that received an upstream HTTP response with a
non-retryable status (neither 429 nor ≥ 500, e.g. a 400 — and also any
2xx) is the final attempt: the loop stops immediately and never tries a
further candidate. -/
theorem retryLoop_bounded_and_stops_on_nonretryable :
    ∀ (now : ℤ) (results : List ModelRecord) (pinned : Option String)
      (apiKey providerUrl : String → Option String) (fetchOutcome : ℕ → FetchOutcome),
      (routeLoop now results pinned apiKey providerUrl fetchOutcome).2.length
          ≤ MAX_PROACTIVE_RETRIES + 1
      ∧ MAX_PROACTIVE_RETRIES + 1 = 6
      ∧ ∀ a ∈ (routeLoop now results pinned apiKey providerUrl fetchOutcome).2.dropLast,
          ∀ s, a.status = .http s → isRetryableProxyStatus s = true := by
  intro now results pinned k u f
  refine ⟨?_, rfl, ?_⟩
  · have h := routeLoopGo_length now results pinned k u f (MAX_PROACTIVE_RETRIES + 1) 0 [] []
    simpa [routeLoop] using h
  · have h := routeLoopGo_dropLast now results pinned k u f (MAX_PROACTIVE_RETRIES + 1) 0 [] []
      (by intro x hx; exact absurd hx (List.not_mem_nil x))
    simpa [routeLoop] using h

/-- Witness for C1: in a run whose first attempt got a retryable 500 and
whose second got a 200, the sole non-final attempt is the 500 one, and
500 is indeed retryable. -/
theorem retryLoop_bounded_witness :
    (⟨"m1", "prov", .http 500, true⟩ : AttemptMeta)
        ∈ (routeLoop 0 demoModels none allKeys allUrls fetch500Then200).2.dropLast
    ∧ isRetryableProxyStatus 500 = true :=
  ⟨by decide,
    (retryLoop_bounded_and_stops_on_nonretryable 0 demoModels none allKeys allUrls
        fetch500Then200).2.2 ⟨"m1", "prov", .http 500, true⟩ (by decide) 500 rfl⟩

/-- C9: No model is attempted twice within one inbound request:
`pickNextModel` only returns a candidate whose id is not yet in the
attempted set, and consequently the model ids of all attempts of one
loop run are pairwise distinct. -/
theorem attempted_models_pairwise_distinct :
    (∀ (now : ℤ) (results : List ModelRecord) (pinned : Option String)
        (attempted : List String) (m : ModelRecord),
        pickNextModel now results pinned attempted = some m → m.modelId ∉ attempted)
    ∧ ∀ (now : ℤ) (results : List ModelRecord) (pinned : Option String)
        (apiKey providerUrl : String → Option String) (fetchOutcome : ℕ → FetchOutcome),
        ((routeLoop now results pinned apiKey providerUrl fetchOutcome).2.map
          fun a => a.model).Nodup := by
  constructor
  · intro now results pinned attempted m h
    exact pickNextModel_not_attempted h
  · intro now results pinned k u f
    unfold routeLoop
    exact routeLoopGo_nodup now results pinned k u f (MAX_PROACTIVE_RETRIES + 1) 0 [] []
      (by simp) (by simp)

/-- Witness for C9: with `m1` not in the attempted set, `pickNextModel`
returns it, and its id is indeed outside the attempted set. -/
theorem attempted_models_distinct_witness :
    pickNextModel 0 demoModels none ["mx"] = some (demoModel "m1")
    ∧ (demoModel "m1").modelId ∉ (["mx"] : List String) :=
  ⟨by rfl,
    attempted_models_pairwise_distinct.1 0 demoModels none ["mx"] (demoModel "m1") (by rfl)⟩

/-- C3 (amended): when the retry loop finishes with no selected upstream
response, the router answers the synthetic
`503 { error: { message: "No models currently available for this
request." } }`; and every error response the router itself originates is
either that synthetic 503 or the catch-all `400 { error: { message } }`
produced when a transport error thrown on the final allowed attempt (or
any other in-handler exception) reaches the outer catch — it never
fabricates any other upstream-looking error. -/
theorem router_synthetic_errors_503_or_caught400 :
    ∀ (now : ℤ) (results : List ModelRecord) (pinned : Option String)
      (apiKey providerUrl : String → Option String) (fetchOutcome : ℕ → FetchOutcome),
      ((routeLoop now results pinned apiKey providerUrl fetchOutcome).1 = .exhausted →
        handleChatCompletion now results pinned apiKey providerUrl fetchOutcome
          = .synthetic 503 noModelsMessage)
      ∧ (∀ s msg,
          handleChatCompletion now results pinned apiKey providerUrl fetchOutcome
            = .synthetic s msg →
          (s = 503 ∧ msg = noModelsMessage) ∨ s = 400) := by
  intro now results pinned k u f
  constructor
  · intro h
    unfold handleChatCompletion
    rw [h]
  · intro s msg h
    unfold handleChatCompletion at h
    cases hexit : (routeLoop now results pinned k u f).1 with
    | selected m st =>
      rw [hexit] at h
      exact absurd h (by simp)
    | exhausted =>
      rw [hexit] at h
      left
      injection h with h1 h2
      exact ⟨h1.symm, h2.symm⟩
    | thrown m =>
      rw [hexit] at h
      right
      injection h with h1 h2
      exact h1.symm

/-- Counterexample for C3 as frozen: when every fetch throws a transport
error, the final attempt's error is rethrown and the outer catch answers
a router-originated `400 { error: { message } }` — a synthetic error
response that is not the 503, so the synthetic 503 is not the only error
the router originates. -/
theorem router_originates_non503_error :
    handleChatCompletion 0 demoModels none allKeys allUrls fetchAllNetErr
        = .synthetic 400 "fetch failed"
    ∧ (400 : ℕ) ≠ 503 := by
  exact ⟨by decide, by decide⟩

/-- Witness for C3 (amended): when no provider has an API key every
candidate is skipped, the loop exhausts with nothing selected, and the
router answers the synthetic 503 with the exact message. -/
theorem router_synthetic_503_witness :
    (routeLoop 0 demoModels none noKeys allUrls fetchAllNetErr).1 = .exhausted
    ∧ handleChatCompletion 0 demoModels none noKeys allUrls fetchAllNetErr
        = .synthetic 503 noModelsMessage :=
  ⟨by rfl,
    (router_synthetic_errors_503_or_caught400 0 demoModels none noKeys allUrls
        fetchAllNetErr).1 (by rfl)⟩

/-- C2: The ranking returns only records that are neither banned nor
disabled and whose model id is outside the exclusion set; consequently
`findBestModel` never returns a banned or disabled record, and in the
scenario with A (banned, would-be score 80) and B (eligible, score 10)
it returns B, never A. -/
theorem ranking_excludes_banned_disabled :
    (∀ (now : ℤ) (results : List ModelRecord) (excl : List String) (r : ModelRecord),
        r ∈ rankModelsForRouting now results excl →
        r.status ≠ "banned" ∧ r.status ≠ "disabled" ∧ r.modelId ∉ excl)
    ∧ (∀ (now : ℤ) (results : List ModelRecord) (r : ModelRecord),
        findBestModel now results = some r → r.status ≠ "banned" ∧ r.status ≠ "disabled")
    ∧ recA = { recAUp with status := "banned" }
    ∧ computeQoS 0 recAUp = 80
    ∧ computeQoS 0 recB = 10
    ∧ (∀ now : ℤ, findBestModel now [recA, recB] = some recB) := by
  have hmain : ∀ (now : ℤ) (results : List ModelRecord) (excl : List String) (r : ModelRecord),
      r ∈ rankModelsForRouting now results excl →
      r.status ≠ "banned" ∧ r.status ≠ "disabled" ∧ r.modelId ∉ excl := by
    intro now results excl r h
    obtain ⟨_, helig, hexcl⟩ := mem_rankModelsForRouting h
    obtain ⟨hb, hd⟩ := eligible_status_ne helig
    exact ⟨hb, hd, contains_false_not_mem hexcl⟩
  refine ⟨hmain, ?_, rfl, qos_recAUp, qos_recB, fun now => rfl⟩
  intro now results r h
  have := hmain now results [] r (head?_mem_rank h)
  exact ⟨this.1, this.2.1⟩

/-- Witness for C2: the eligible record B is a member of the ranking of
`[B]`, and the theorem instantiated there yields its eligibility. -/
theorem ranking_excludes_witness :
    recB ∈ rankModelsForRouting 0 [recB] []
    ∧ (recB.status ≠ "banned" ∧ recB.status ≠ "disabled"
        ∧ recB.modelId ∉ ([] : List String)) :=
  ⟨List.mem_singleton_self recB,
    ranking_excludes_banned_disabled.1 0 [recB] [] recB (List.mem_singleton_self recB)⟩

/-- Counterexample for C6 as frozen: with in-window successful latencies
1 ms and 2 ms the exact arithmetic mean is 3/2, but `getAvg` returns the
rounded value 2 — so `getAvg` does not equal the exact arithmetic mean. -/
theorem getAvg_not_exact_mean :
    getAvg 0 DEFAULT_PING_WINDOW_MS c6CounterRec = some 2
    ∧ ((inWindowSuccesses 0 DEFAULT_PING_WINDOW_MS c6CounterRec).map fun p => p.ms).sum
        / ((inWindowSuccesses 0 DEFAULT_PING_WINDOW_MS c6CounterRec).length : ℚ) = 3/2
    ∧ (2 : ℚ) ≠ 3/2 :=
  ⟨getAvg_c6Counter, c6Counter_mean, by norm_num⟩

/-- C6 (amended): `getAvg` returns `Infinity` (`none`) exactly when no
HTTP-200 ping lies within the sliding window; otherwise it returns the
arithmetic mean of the in-window 200-coded latencies rounded to the
nearest integer (`Math.round`, half up).  The specification's example
`[{200,200ms}, {200,400ms}, {429,800ms}]` gives 300. -/
theorem getAvg_none_iff_and_rounded_mean :
    ∀ (now windowMs : ℤ) (r : ModelRecord),
      (getAvg now windowMs r = none ↔ inWindowSuccesses now windowMs r = [])
      ∧ (inWindowSuccesses now windowMs r ≠ [] →
          getAvg now windowMs r
            = some (jsRound (((inWindowSuccesses now windowMs r).map fun p => p.ms).sum
                / ((inWindowSuccesses now windowMs r).length : ℚ))))
      ∧ getAvg 0 DEFAULT_PING_WINDOW_MS c6ExampleRec = some 300 := by
  intro now windowMs r
  refine ⟨?_, ?_, getAvg_c6Example⟩
  · unfold getAvg
    by_cases h : (inWindowSuccesses now windowMs r).isEmpty = true
    · rw [if_pos h]
      simp [List.isEmpty_iff.mp h]
    · rw [if_neg h]
      rw [List.isEmpty_iff] at h
      constructor
      · intro hc
        exact absurd hc (by simp)
      · intro hc
        exact absurd hc h
  · intro hne
    unfold getAvg
    rw [if_neg (by simpa [List.isEmpty_iff] using hne)]

/-- Witness for C6 (amended): the record with latencies 1 ms and 2 ms has
a nonempty in-window success list, and `getAvg` equals the rounded mean
there. -/
theorem getAvg_rounded_mean_witness :
    inWindowSuccesses 0 DEFAULT_PING_WINDOW_MS c6CounterRec ≠ []
    ∧ getAvg 0 DEFAULT_PING_WINDOW_MS c6CounterRec
        = some (jsRound (((inWindowSuccesses 0 DEFAULT_PING_WINDOW_MS c6CounterRec).map
              fun p => p.ms).sum
            / ((inWindowSuccesses 0 DEFAULT_PING_WINDOW_MS c6CounterRec).length : ℚ))) :=
  ⟨inWindow_c6Counter_ne,
    (getAvg_none_iff_and_rounded_mean 0 DEFAULT_PING_WINDOW_MS c6CounterRec).2.1
      inWindow_c6Counter_ne⟩

lemma jsRound_mul_tier_le {base m1 m2 : ℚ} (hb : 0 ≤ base) (hm : m2 ≤ m1) :
    jsRound (base * m2) ≤ jsRound (base * m1) :=
  jsRound_le_jsRound (mul_le_mul_of_nonneg_left hm hb)

/-- C8 (amended): holding the quality metrics (nonnegative) and the
in-window average latency fixed, an `up` record at 96% uptime scores at
least as high as an otherwise-identical `up` record at 80% uptime (the
increase is not always strict, because the rounded tier-multiplied
scores can coincide for small base scores). -/
theorem qos_uptime_tier_monotone :
    ∀ (now : ℤ) (r1 r2 : ModelRecord),
      r1.status = "up" → r2.status = "up" →
      r1.coding = r2.coding → r1.intell = r2.intell → r1.termbench = r2.termbench →
      0 ≤ r1.coding → 0 ≤ r1.intell → 0 ≤ r1.termbench →
      getAvg now DEFAULT_PING_WINDOW_MS r1 = getAvg now DEFAULT_PING_WINDOW_MS r2 →
      getUptime r1 = 96 → getUptime r2 = 80 →
      computeQoS now r2 ≤ computeQoS now r1 := by
  intro now r1 r2 h1 h2 hc hi ht hc0 hi0 ht0 havg hu1 hu2
  have hc0' : 0 ≤ r2.coding := hc ▸ hc0
  have hi0' : 0 ≤ r2.intell := hi ▸ hi0
  have ht0' : 0 ≤ r2.termbench := ht ▸ ht0
  simp only [computeQoS, h1, h2, hc, hi, ht, havg, hu1, hu2,
    bne_self_eq_false, Bool.false_eq_true, if_false]
  rw [if_pos (by norm_num : (95 : ℤ) ≤ 96)]
  rw [if_neg (by norm_num : ¬ (95 : ℤ) ≤ 80), if_neg (by norm_num : ¬ (85 : ℤ) ≤ 80),
    if_pos (by norm_num : (70 : ℤ) ≤ 80)]
  cases hA : getAvg now DEFAULT_PING_WINDOW_MS r2 with
  | none =>
    simp only [hA]
    refine jsRound_mul_tier_le ?_ (by norm_num)
    have hmax : (0 : ℚ) ≤ max 0 (1000 - 1000) / 10 :=
      div_nonneg (le_max_left _ _) (by norm_num)
    nlinarith
  | some a =>
    simp only [hA]
    refine jsRound_mul_tier_le ?_ (by norm_num)
    have hmax : (0 : ℚ) ≤ max 0 (1000 - (a : ℚ)) / 10 :=
      div_nonneg (le_max_left _ _) (by norm_num)
    nlinarith

/-- Counterexample for C8 as frozen: two otherwise-identical `up` records
with the same metrics and the same in-window average latency, one at 96%
uptime and one at 80% uptime, receive the same score (both 1) — the 96%
variant's score is not strictly higher. -/
theorem qos_uptime_tier_not_strict :
    c8High.status = "up" ∧ c8Low.status = "up"
    ∧ c8High.coding = c8Low.coding ∧ c8High.intell = c8Low.intell
    ∧ c8High.termbench = c8Low.termbench
    ∧ getAvg 0 DEFAULT_PING_WINDOW_MS c8High = getAvg 0 DEFAULT_PING_WINDOW_MS c8Low
    ∧ getUptime c8High = 96 ∧ getUptime c8Low = 80
    ∧ computeQoS 0 c8High = 1 ∧ computeQoS 0 c8Low = 1 :=
  ⟨rfl, rfl, rfl, rfl, rfl, getAvg_c8High.trans getAvg_c8Low.symm,
    getUptime_c8High, getUptime_c8Low, qos_c8High, qos_c8Low⟩

/-- Witness for C8 (amended): instantiating the monotonicity theorem at
the concrete 96% / 80% pair. -/
theorem qos_uptime_tier_witness :
    getUptime c8High = 96 ∧ getUptime c8Low = 80
    ∧ computeQoS 0 c8Low ≤ computeQoS 0 c8High :=
  ⟨getUptime_c8High, getUptime_c8Low,
    qos_uptime_tier_monotone 0 c8High c8Low rfl rfl rfl rfl rfl (le_refl 0) zero_le_one
      (le_refl 0) (getAvg_c8High.trans getAvg_c8Low.symm) getUptime_c8High getUptime_c8Low⟩

/-- C10: Immediately after banning model M, M's (first matching) record
has status `banned`; the pin is cleared when M was pinned, so the pin can
never point at M afterwards; and unbanning M resets its record to
`pending` with an emptied ping history. -/
theorem ban_endpoint_state_change :
    ∀ (st : BanState) (mid : String),
      ((st.results.any fun r => r.modelId == mid) = true →
        ∃ r1, ((banHandler st (some mid) true).1.results.find? fun r => r.modelId == mid)
            = some r1 ∧ r1.status = "banned")
      ∧ (st.pinnedModelId = some mid →
          (banHandler st (some mid) true).1.pinnedModelId = none)
      ∧ (banHandler st (some mid) true).1.pinnedModelId ≠ some mid
      ∧ ((st.results.any fun r => r.modelId == mid) = true →
          ∃ r2, ((banHandler st (some mid) false).1.results.find? fun r => r.modelId == mid)
              = some r2 ∧ r2.status = "pending" ∧ r2.pings = []) := by
  intro st mid
  have hresT : (banHandler st (some mid) true).1.results = setBanStatus st.results mid true :=
    rfl
  have hresF : (banHandler st (some mid) false).1.results
      = setBanStatus st.results mid false := rfl
  have hpin : (banHandler st (some mid) true).1.pinnedModelId
      = if (true = true) ∧ st.pinnedModelId = some mid then none else st.pinnedModelId := rfl
  refine ⟨?_, ?_, ?_, ?_⟩
  · intro h
    obtain ⟨r0, _, h2, _⟩ := find?_setBanStatus st.results h
    rw [hresT, h2]
    exact ⟨_, rfl, rfl⟩
  · intro hp
    rw [hpin, if_pos ⟨rfl, hp⟩]
  · by_cases hp : st.pinnedModelId = some mid
    · rw [hpin, if_pos ⟨rfl, hp⟩]
      simp
    · rw [hpin, if_neg (fun hcontra => hp hcontra.2)]
      exact hp
  · intro h
    obtain ⟨r0, _, _, h3⟩ := find?_setBanStatus st.results h
    rw [hresF, h3]
    exact ⟨_, rfl, rfl, rfl⟩

/-- Witness for C10: banning the pinned live model `m1` marks its record
banned and clears the pin. -/
theorem ban_endpoint_witness :
    (banDemoState.results.any fun r => r.modelId == "m1") = true
    ∧ banDemoState.pinnedModelId = some "m1"
    ∧ (∃ r1, ((banHandler banDemoState (some "m1") true).1.results.find?
          fun r => r.modelId == "m1") = some r1 ∧ r1.status = "banned")
    ∧ (banHandler banDemoState (some "m1") true).1.pinnedModelId = none := by
  have h := ban_endpoint_state_change banDemoState "m1"
  exact ⟨by decide, rfl, h.1 (by decide), h.2.1 rfl⟩
